import Mathlib

/-!
Shallow embedding of the arbitrage bot core (strategies/arbitrage_strategy.py,
config.py).  Prices, spreads and PnL are modelled as exact rationals; the
position map is an association list keyed by symbol (mirroring a Python dict);
gateway and quote-fetch outcomes are passed in explicitly as oracle values.
-/

namespace ArbitrageBot

/-- Side of a position on the reference venue (the Python code uses the
strings long and short). -/
inductive Side where
  | long
  | short
deriving DecidableEq

/-- Mirror of the ArbitrageOpportunity dataclass. -/
structure ArbitrageOpportunity where
  symbol : String
  mexc_price : ℚ
  dex_price : ℚ
  spread_percent : ℚ
  direction : Side
  potential_profit : ℚ
  timestamp : ℚ
deriving DecidableEq

/-- Mirror of the ActivePosition dataclass. -/
structure ActivePosition where
  symbol : String
  side : Side
  size : ℚ
  entry_price : ℚ
  entry_spread : ℚ
  entry_time : ℚ
  target_spread : ℚ
  stop_loss_price : ℚ
  take_profit_price : ℚ
deriving DecidableEq

/-- The configuration surface the strategy and validation read
(config.py properties). -/
structure Config where
  mexc_api_key : String
  mexc_secret : String
  min_spread_percent : ℚ
  target_spread_percent : ℚ
  fixed_position_size : ℚ
  leverage : ℚ
  stop_loss_percent : ℚ
  take_profit_percent : ℚ
  max_positions : ℕ
  symbols : List String
deriving DecidableEq

/-- Mirror of Config.validate (config.py lines 132-146): empty API keys,
non-positive minimum spread, or an empty symbol list fail; nothing else is
checked. -/
def Config.validate (c : Config) : Bool :=
  if c.mexc_api_key = "" ∨ c.mexc_secret = "" then false
  else if c.min_spread_percent ≤ 0 then false
  else if c.symbols = [] then false
  else true

/-- Mutable state of ArbitrageStrategy (fields set in the constructor). -/
structure StrategyState where
  active_positions : List (String × ActivePosition)
  opportunities_history : List ArbitrageOpportunity
  total_trades : ℕ
  winning_trades : ℕ
  total_pnl : ℚ
  daily_pnl : ℚ
  daily_trades : ℕ
  last_daily_reset : ℤ
deriving DecidableEq

/-- The freshly constructed strategy state: empty maps and zero counters,
with the construction date recorded as the last daily reset. -/
def initialState (d : ℤ) : StrategyState :=
  { active_positions := []
    opportunities_history := []
    total_trades := 0
    winning_trades := 0
    total_pnl := 0
    daily_pnl := 0
    daily_trades := 0
    last_daily_reset := d }

/-- Python dict read: first binding for the key, none when absent. -/
def posLookup (m : List (String × ActivePosition)) (k : String) :
    Option ActivePosition :=
  match m with
  | [] => none
  | (k2, v) :: rest => if k2 = k then some v else posLookup rest k

/-- Python dict write: replace the binding in place when the key is present,
otherwise append at the end. -/
def posInsert (m : List (String × ActivePosition)) (k : String)
    (v : ActivePosition) : List (String × ActivePosition) :=
  match m with
  | [] => [(k, v)]
  | (k2, v2) :: rest =>
      if k2 = k then (k2, v) :: rest else (k2, v2) :: posInsert rest k v

/-- Python dict del: drop the first binding for the key. -/
def posErase (m : List (String × ActivePosition)) (k : String) :
    List (String × ActivePosition) :=
  match m with
  | [] => []
  | (k2, v2) :: rest => if k2 = k then rest else (k2, v2) :: posErase rest k

/-- The keys of the position map. -/
def keys (m : List (String × ActivePosition)) : List String :=
  m.map Prod.fst

/-- Outcome of the gateway market-order call inside the entry path:
success carries the (possibly falsy) fill price of the order, failure is a
falsy return, exn is a raised exception caught by the handler. -/
inductive OpenResult where
  | ok (price : Option ℚ)
  | failed
  | exn
deriving DecidableEq

/-- Python expression order-price or mexc-price: a None or zero fill price
falls back to the opportunity price (line 213). -/
def entryPriceOf (price : Option ℚ) (fallback : ℚ) : ℚ :=
  match price with
  | some p => if p = 0 then fallback else p
  | none => fallback

/-- Mirror of the body of the open-position method (lines 189-249).  Returns
the new state and whether the gateway order call was made. -/
def open_position (cfg : Config) (st : StrategyState)
    (opp : ArbitrageOpportunity) (now : ℚ) (gw : OpenResult) :
    StrategyState × Bool :=
  let position_size := cfg.fixed_position_size / opp.mexc_price
  match gw with
  | OpenResult.failed => (st, true)
  | OpenResult.exn => (st, true)
  | OpenResult.ok price =>
      let entry_price := entryPriceOf price opp.mexc_price
      let stop_loss_price :=
        if opp.direction = Side.long then
          entry_price * (1 - cfg.stop_loss_percent / 100)
        else entry_price * (1 + cfg.stop_loss_percent / 100)
      let take_profit_price :=
        if opp.direction = Side.long then
          entry_price * (1 + cfg.take_profit_percent / 100)
        else entry_price * (1 - cfg.take_profit_percent / 100)
      let position : ActivePosition :=
        { symbol := opp.symbol
          side := opp.direction
          size := position_size
          entry_price := entry_price
          entry_spread := opp.spread_percent
          entry_time := now
          target_spread := cfg.target_spread_percent
          stop_loss_price := stop_loss_price
          take_profit_price := take_profit_price }
      ({ st with
          active_positions := posInsert st.active_positions opp.symbol position
          total_trades := st.total_trades + 1
          daily_trades := st.daily_trades + 1 }, true)

/-- Mirror of the consider-entry method (lines 171-187): skip when the symbol
already has a position, skip when the position count reached the maximum,
otherwise open. -/
def consider_entry (cfg : Config) (st : StrategyState)
    (opp : ArbitrageOpportunity) (now : ℚ) (gw : OpenResult) :
    StrategyState × Bool :=
  if posLookup st.active_positions opp.symbol ≠ none then (st, false)
  else if cfg.max_positions ≤ st.active_positions.length then (st, false)
  else open_position cfg st opp now gw

/-- Mirror of the analyze-symbol method (lines 128-169).  Returns the new
state, the emitted opportunity when one qualifies, and whether the gateway
order call was made. -/
def analyze_symbol (cfg : Config) (st : StrategyState) (symbol : String)
    (mexc_prices dex_prices : String → Option ℚ) (now : ℚ) (gw : OpenResult) :
    StrategyState × Option ArbitrageOpportunity × Bool :=
  match mexc_prices symbol, dex_prices symbol with
  | some mexc_price, some dex_price =>
      let spread_percent := |mexc_price - dex_price| / mexc_price * 100
      let direction := if mexc_price < dex_price then Side.long else Side.short
      if cfg.min_spread_percent ≤ spread_percent then
        let opp : ArbitrageOpportunity :=
          { symbol := symbol
            mexc_price := mexc_price
            dex_price := dex_price
            spread_percent := spread_percent
            direction := direction
            potential_profit := spread_percent - 1/2
            timestamp := now }
        let st1 :=
          { st with opportunities_history := st.opportunities_history ++ [opp] }
        let r := consider_entry cfg st1 opp now gw
        (r.1, some opp, r.2)
      else (st, none, false)
  | _, _ => (st, none, false)

/-- Mirror of the market-monitoring loop body (lines 99-126): the configured
symbols are analyzed in list order; alongside the final state we record, per
symbol, whether a gateway order call was made for it. -/
def monitor_markets (cfg : Config) (st : StrategyState)
    (mexc_prices dex_prices : String → Option ℚ) (now : ℚ)
    (gw : String → OpenResult) : StrategyState × List (String × Bool) :=
  cfg.symbols.foldl
    (fun acc symbol =>
      let r := analyze_symbol cfg acc.1 symbol mexc_prices dex_prices now
          (gw symbol)
      (r.1, acc.2 ++ [(symbol, r.2.2)]))
    (st, [])

/-- Outcome of the two quote fetches inside exit evaluation: ok carries the
(possibly missing) reference and comparison prices, exn is an exception
raised anywhere in the try block. -/
inductive FetchResult where
  | ok (mexc : Option ℚ) (dex : Option ℚ)
  | exn
deriving DecidableEq

/-- The hard-coded maximum holding time of one hour (line 309), in seconds. -/
def max_hold_seconds : ℚ := 3600

/-- Mirror of the should-close-position method (lines 268-318), with the
checks in source order: missing quote, target-spread convergence, stop-loss,
take-profit, maximum holding time; an exception forces a close. -/
def should_close_position (pos : ActivePosition) (now : ℚ)
    (f : FetchResult) : Bool :=
  match f with
  | FetchResult.exn => true
  | FetchResult.ok mexcQuote dexQuote =>
      match mexcQuote, dexQuote with
      | some current_mexc_price, some current_dex_price =>
          let current_spread :=
            |current_mexc_price - current_dex_price| / current_mexc_price * 100
          if current_spread ≤ pos.target_spread then true
          else if pos.side = Side.long ∧
              current_mexc_price ≤ pos.stop_loss_price then true
          else if pos.side = Side.short ∧
              pos.stop_loss_price ≤ current_mexc_price then true
          else if pos.side = Side.long ∧
              pos.take_profit_price ≤ current_mexc_price then true
          else if pos.side = Side.short ∧
              current_mexc_price ≤ pos.take_profit_price then true
          else if max_hold_seconds < now - pos.entry_time then true
          else false
      | _, _ => true

/-- Outcome of the close path oracle: exn is a raised exception, noTicker is
a falsy ticker, ticker carries the current price and whether the gateway
close call succeeded. -/
inductive CloseFetch where
  | exn
  | noTicker
  | ticker (price : ℚ) (closeOk : Bool)
deriving DecidableEq

/-- The flat fee constant 0.0004 of line 352. -/
def fee_rate : ℚ := 4/10000

/-- Mirror of the close-position method (lines 320-376): on gateway success
the realized PnL (price delta times size times leverage, minus the flat fee
on the entry notional) is added to the totals, the win counter bumps when
the PnL is positive, and the position is removed; on any failure the state
is unchanged. -/
def close_position (cfg : Config) (st : StrategyState) (symbol : String)
    (f : CloseFetch) : StrategyState :=
  match posLookup st.active_positions symbol with
  | none => st
  | some position =>
      match f with
      | CloseFetch.exn => st
      | CloseFetch.noTicker => st
      | CloseFetch.ticker current_price closeOk =>
          if closeOk then
            let price_diff :=
              if position.side = Side.long then
                current_price - position.entry_price
              else position.entry_price - current_price
            let pnl := price_diff * position.size * cfg.leverage -
              position.entry_price * position.size * fee_rate
            { st with
                total_pnl := st.total_pnl + pnl
                daily_pnl := st.daily_pnl + pnl
                winning_trades :=
                  st.winning_trades + (if 0 < pnl then 1 else 0)
                active_positions := posErase st.active_positions symbol }
          else st

/-- Mirror of the manage-positions method (lines 251-266): collect the open
positions whose exit evaluation signals a close, then close them in order. -/
def manage_positions (cfg : Config) (st : StrategyState) (now : ℚ)
    (fetch : String → FetchResult) (cf : String → CloseFetch) :
    StrategyState :=
  let symbols_to_close :=
    ((st.active_positions.filter
        (fun p => should_close_position p.2 now (fetch p.1))).map Prod.fst)
  symbols_to_close.foldl (fun s symbol => close_position cfg s symbol (cf symbol)) st

/-- Mirror of the update-statistics method (lines 378-389): on a calendar
date change the daily counters reset and the reset date advances (the prior
day totals are logged once, reported here as the boolean); otherwise
nothing changes. -/
def update_statistics (st : StrategyState) (current_date : ℤ) :
    StrategyState × Bool :=
  if current_date ≠ st.last_daily_reset then
    ({ st with
        daily_pnl := 0
        daily_trades := 0
        last_daily_reset := current_date }, true)
  else (st, false)

/-- An entry or exit event against the position map, with its oracle data. -/
inductive Event where
  | enter (opp : ArbitrageOpportunity) (now : ℚ) (gw : OpenResult)
  | leave (symbol : String) (f : CloseFetch)

/-- One event step of the strategy state. -/
def stepEvent (cfg : Config) (st : StrategyState) (e : Event) : StrategyState :=
  match e with
  | Event.enter opp now gw => (consider_entry cfg st opp now gw).1
  | Event.leave symbol f => close_position cfg st symbol f

/-- A sequence of entry and exit events. -/
def runEvents (cfg : Config) (st : StrategyState) (es : List Event) :
    StrategyState :=
  es.foldl (stepEvent cfg) st

/-- The position-map invariant: at most one binding per symbol, and no more
open positions than the configured maximum. -/
abbrev PosInvariant (cfg : Config) (st : StrategyState) : Prop :=
  (keys st.active_positions).Nodup ∧
    st.active_positions.length ≤ cfg.max_positions

/-- Scenario configuration: two symbols, room for a single position. -/
def cfgD : Config :=
  { mexc_api_key := "k", mexc_secret := "s", min_spread_percent := 15/2,
    target_spread_percent := 3/2, fixed_position_size := 51/10, leverage := 2,
    stop_loss_percent := 50, take_profit_percent := 20, max_positions := 1,
    symbols := ["A", "B"] }

/-- Scenario reference-venue quotes: both symbols quoted. -/
def mexcD : String → Option ℚ := fun s =>
  if s = "A" then some 100 else if s = "B" then some 200 else none

/-- Scenario comparison-venue quotes: spreads of 10 percent and 15 percent,
both above the 7.5 percent minimum. -/
def dexD : String → Option ℚ := fun s =>
  if s = "A" then some 110 else if s = "B" then some 230 else none

/-- Scenario gateway: every order call fills at the quoted price. -/
def gwD : String → OpenResult := fun _ => OpenResult.ok (some 100)

/-- A concrete qualifying opportunity used to exercise the event fold. -/
def oppW : ArbitrageOpportunity :=
  { symbol := "A", mexc_price := 100, dex_price := 110, spread_percent := 10,
    direction := Side.long, potential_profit := 19/2, timestamp := 0 }

/-- Modelled from the claim wording for the exit path: the five exit rules
in the stated priority (missing quote, spread convergence, stop-loss,
take-profit, maximum holding time), first match winning.  Used only to
compare against the source embedding. -/
def exitRulesSpec (pos : ActivePosition) (now : ℚ)
    (mexcQuote dexQuote : Option ℚ) : Bool :=
  match mexcQuote, dexQuote with
  | some refPrice, some cmpPrice =>
      let currentSpread := |refPrice - cmpPrice| / refPrice * 100
      if currentSpread ≤ pos.target_spread then true
      else if (pos.side = Side.long ∧ refPrice ≤ pos.stop_loss_price) ∨
          (pos.side = Side.short ∧ pos.stop_loss_price ≤ refPrice) then true
      else if (pos.side = Side.long ∧ pos.take_profit_price ≤ refPrice) ∨
          (pos.side = Side.short ∧ refPrice ≤ pos.take_profit_price) then true
      else if max_hold_seconds < now - pos.entry_time then true
      else false
  | _, _ => true

/-- A concrete open long position: entry 100, size 1, target spread 1.5,
stop 50, take 120. -/
def pnlPos : ActivePosition :=
  { symbol := "B", side := Side.long, size := 1, entry_price := 100,
    entry_spread := 10, entry_time := 0, target_spread := 3/2,
    stop_loss_price := 50, take_profit_price := 120 }

/-- A state holding exactly the one open position above. -/
def pnlSt : StrategyState :=
  { active_positions := [("B", pnlPos)], opportunities_history := [],
    total_trades := 1, winning_trades := 0, total_pnl := 0, daily_pnl := 0,
    daily_trades := 1, last_daily_reset := 0 }

/-- Reference quotes for the scanner example: one symbol at 45000. -/
def m3 : String → Option ℚ := fun s => if s = "X" then some 45000 else none

/-- Comparison quotes for the scanner example: the same symbol at 48500. -/
def d3 : String → Option ℚ := fun s => if s = "X" then some 48500 else none

/-- A configuration with a zero notional, otherwise identical in shape to
the scenario configuration. -/
def cfg7 : Config :=
  { mexc_api_key := "k", mexc_secret := "s", min_spread_percent := 15/2,
    target_spread_percent := 3/2, fixed_position_size := 0, leverage := 2,
    stop_loss_percent := 50, take_profit_percent := 20, max_positions := 10,
    symbols := ["A"] }

/-- A qualifying opportunity at reference price 100. -/
def opp7 : ArbitrageOpportunity :=
  { symbol := "A", mexc_price := 100, dex_price := 110, spread_percent := 10,
    direction := Side.long, potential_profit := 19/2, timestamp := 0 }

/-- A configuration that passes every validation check yet has zero
maxPositions. -/
def cfg8 : Config :=
  { mexc_api_key := "k", mexc_secret := "s", min_spread_percent := 15/2,
    target_spread_percent := 3/2, fixed_position_size := 51/10, leverage := 2,
    stop_loss_percent := 50, take_profit_percent := 20, max_positions := 0,
    symbols := ["BTC/USDT"] }

/-- Statistics state carrying a daily PnL of 50 dated to day 0. -/
def st9 : StrategyState :=
  { active_positions := [], opportunities_history := [], total_trades := 3,
    winning_trades := 2, total_pnl := 120, daily_pnl := 50, daily_trades := 1,
    last_daily_reset := 0 }

theorem keys_nil : keys [] = [] := rfl

theorem keys_cons (p : String × ActivePosition)
    (rest : List (String × ActivePosition)) :
    keys (p :: rest) = p.1 :: keys rest := rfl

theorem length_keys (m : List (String × ActivePosition)) :
    (keys m).length = m.length := by
  simp [keys]

theorem posLookup_eq_none_iff (m : List (String × ActivePosition))
    (k : String) : posLookup m k = none ↔ k ∉ keys m := by
  induction m with
  | nil => simp [posLookup, keys_nil]
  | cons p rest ih =>
      obtain ⟨k2, v⟩ := p
      by_cases h : k2 = k
      · subst h
        simp [posLookup, keys_cons]
      · have h2 : ¬k = k2 := fun hh => h hh.symm
        simp [posLookup, keys_cons, h, h2, ih]

theorem keys_posInsert (m : List (String × ActivePosition)) (k : String)
    (v : ActivePosition) (h : posLookup m k = none) :
    keys (posInsert m k v) = keys m ++ [k] := by
  induction m with
  | nil => simp [posInsert, keys_nil, keys_cons]
  | cons p rest ih =>
      obtain ⟨k2, v2⟩ := p
      by_cases hk : k2 = k
      · simp [posLookup, hk] at h
      · simp only [posLookup, if_neg hk] at h
        simp [posInsert, keys_cons, hk, ih h]

theorem length_posInsert (m : List (String × ActivePosition)) (k : String)
    (v : ActivePosition) (h : posLookup m k = none) :
    (posInsert m k v).length = m.length + 1 := by
  have h1 : (keys (posInsert m k v)).length = (keys m ++ [k]).length := by
    rw [keys_posInsert m k v h]
  simpa [keys] using h1

theorem posLookup_posInsert_self (m : List (String × ActivePosition))
    (k : String) (v : ActivePosition) :
    posLookup (posInsert m k v) k = some v := by
  induction m with
  | nil => simp [posInsert, posLookup]
  | cons p rest ih =>
      obtain ⟨k2, v2⟩ := p
      by_cases hk : k2 = k <;> simp [posInsert, posLookup, hk, ih]

theorem keys_posErase_sublist (m : List (String × ActivePosition))
    (k : String) : List.Sublist (keys (posErase m k)) (keys m) := by
  induction m with
  | nil => simp [posErase, keys_nil]
  | cons p rest ih =>
      obtain ⟨k2, v2⟩ := p
      by_cases hk : k2 = k
      · subst hk
        simp only [posErase, if_pos rfl]
        exact List.sublist_cons_self k2 (keys rest)
      · simpa [posErase, keys_cons, hk] using ih.cons₂ k2

theorem length_posErase_le (m : List (String × ActivePosition))
    (k : String) : (posErase m k).length ≤ m.length := by
  have h := (keys_posErase_sublist m k).length_le
  simpa [length_keys] using h

theorem posInvariant_open (cfg : Config) (st : StrategyState)
    (opp : ArbitrageOpportunity) (now : ℚ) (gw : OpenResult)
    (hnd : (keys st.active_positions).Nodup)
    (habs : posLookup st.active_positions opp.symbol = none)
    (hlt : st.active_positions.length < cfg.max_positions) :
    PosInvariant cfg (open_position cfg st opp now gw).1 := by
  cases gw with
  | failed => exact ⟨hnd, le_of_lt hlt⟩
  | exn => exact ⟨hnd, le_of_lt hlt⟩
  | ok price =>
      constructor
      · rw [open_position]
        simp only []
        rw [keys_posInsert st.active_positions opp.symbol _ habs]
        have hk : opp.symbol ∉ keys st.active_positions :=
          (posLookup_eq_none_iff _ _).1 habs
        simp [List.nodup_append, hnd, hk]
      · rw [open_position]
        simp only []
        rw [length_posInsert st.active_positions opp.symbol _ habs]
        omega

theorem posInvariant_consider_entry (cfg : Config) (st : StrategyState)
    (opp : ArbitrageOpportunity) (now : ℚ) (gw : OpenResult)
    (h : PosInvariant cfg st) :
    PosInvariant cfg (consider_entry cfg st opp now gw).1 := by
  rw [consider_entry]
  by_cases h1 : posLookup st.active_positions opp.symbol = none
  · by_cases h2 : cfg.max_positions ≤ st.active_positions.length
    · simp [h1, h2]
      exact h
    · simp only [h1, ne_eq, not_true_eq_false, if_false, h2, if_neg,
        not_false_eq_true]
      exact posInvariant_open cfg st opp now gw h.1 h1 (lt_of_not_le h2)
  · simp [h1]
    exact h

theorem posInvariant_close (cfg : Config) (st : StrategyState)
    (s : String) (f : CloseFetch) (h : PosInvariant cfg st) :
    PosInvariant cfg (close_position cfg st s f) := by
  rw [close_position]
  cases hl : posLookup st.active_positions s with
  | none => exact h
  | some position =>
      cases f with
      | exn => exact h
      | noTicker => exact h
      | ticker price closeOk =>
          by_cases hc : closeOk = true
          · simp only [hc, if_true]
            refine ⟨(keys_posErase_sublist _ _).nodup h.1, ?_⟩
            exact le_trans (length_posErase_le _ _) h.2
          · simp only [Bool.not_eq_true] at hc
            simp [hc]
            exact h

theorem posInvariant_step (cfg : Config) (st : StrategyState) (e : Event)
    (h : PosInvariant cfg st) : PosInvariant cfg (stepEvent cfg st e) := by
  cases e with
  | enter opp now gw => exact posInvariant_consider_entry cfg st opp now gw h
  | leave symbol f => exact posInvariant_close cfg st symbol f h

theorem posInvariant_run (cfg : Config) (st : StrategyState)
    (es : List Event) (h : PosInvariant cfg st) :
    PosInvariant cfg (runEvents cfg st es) := by
  induction es generalizing st with
  | nil => exact h
  | cons e rest ih => exact ih _ (posInvariant_step cfg st e h)

/-- Claim C1: across any sequence of entry and exit events the open-position
map keeps at most one position per symbol and never more than maxPositions
entries; and in the concrete tick with maxPositions one and two qualifying
opportunities for distinct symbols, only the first symbol is opened and the
second is rejected with no gateway order call. -/
theorem C1_position_invariants :
    (∀ (cfg : Config) (st : StrategyState) (es : List Event),
        PosInvariant cfg st → PosInvariant cfg (runEvents cfg st es)) ∧
    ((monitor_markets cfgD (initialState 0) mexcD dexD 0 gwD).2 =
        [("A", true), ("B", false)] ∧
      keys (monitor_markets cfgD (initialState 0) mexcD dexD
          0 gwD).1.active_positions = ["A"]) := by
  refine ⟨posInvariant_run, ?_, ?_⟩
  · norm_num +decide [monitor_markets, analyze_symbol, consider_entry,
      open_position, cfgD, mexcD, dexD, gwD, initialState, posLookup,
      posInsert, entryPriceOf, keys]
  · norm_num +decide [monitor_markets, analyze_symbol, consider_entry,
      open_position, cfgD, mexcD, dexD, gwD, initialState, posLookup,
      posInsert, entryPriceOf, keys]

/-- Witness for C1: the invariant holds for the fresh state and is carried
through a concrete entry followed by a concrete exit. -/
theorem C1_position_invariants_witness :
    PosInvariant cfgD (initialState 0) ∧
      PosInvariant cfgD (runEvents cfgD (initialState 0)
        [Event.enter oppW 0 (OpenResult.ok (some 100)),
         Event.leave "A" (CloseFetch.ticker 110 true)]) := by
  have h0 : PosInvariant cfgD (initialState 0) := by
    constructor
    · simp [initialState, keys]
    · simp [initialState, cfgD]
  exact ⟨h0, C1_position_invariants.1 cfgD (initialState 0) _ h0⟩

/-- Claim C2 counterexample: for the long with entry 100, exit 110, size 1,
leverage 2, the code charges the flat 0.0004 fee on the entry notional only
once, yielding a realized PnL of 19.96, not the claimed 19.92. -/
theorem C2_counterexample :
    (close_position cfgD pnlSt "B"
        (CloseFetch.ticker 110 true)).total_pnl = 1996/100 ∧
      (1996/100 : ℚ) ≠ 1992/100 := by
  constructor
  · norm_num +decide [close_position, posLookup, posErase, fee_rate, cfgD,
      pnlSt, pnlPos]
  · norm_num

/-- Claim C2 amended: for every closed position the realized PnL is the
directional price delta times size times leverage, minus a single flat fee
of entry times size times 0.0004 — the fee is not doubled for the round
trip. -/
theorem C2_pnl_formula (cfg : Config) (st : StrategyState) (symbol : String)
    (pos : ActivePosition) (exitPrice : ℚ)
    (h : posLookup st.active_positions symbol = some pos) :
    (close_position cfg st symbol
        (CloseFetch.ticker exitPrice true)).total_pnl =
      st.total_pnl +
        ((if pos.side = Side.long then exitPrice - pos.entry_price
          else pos.entry_price - exitPrice) * pos.size * cfg.leverage -
          pos.entry_price * pos.size * (4/10000)) ∧
    (close_position cfg st symbol
        (CloseFetch.ticker exitPrice true)).daily_pnl =
      st.daily_pnl +
        ((if pos.side = Side.long then exitPrice - pos.entry_price
          else pos.entry_price - exitPrice) * pos.size * cfg.leverage -
          pos.entry_price * pos.size * (4/10000)) := by
  rw [close_position, h]
  simp [fee_rate]

/-- Witness for C2: the amended formula instantiated at the concrete long
position with entry 100, exit 110, size 1, leverage 2. -/
theorem C2_pnl_formula_witness :
    posLookup pnlSt.active_positions "B" = some pnlPos ∧
      (close_position cfgD pnlSt "B"
          (CloseFetch.ticker 110 true)).total_pnl =
        pnlSt.total_pnl +
          ((if pnlPos.side = Side.long then 110 - pnlPos.entry_price
            else pnlPos.entry_price - 110) * pnlPos.size * cfgD.leverage -
            pnlPos.entry_price * pnlPos.size * (4/10000)) := by
  have h : posLookup pnlSt.active_positions "B" = some pnlPos := by
    simp [posLookup, pnlSt]
  exact ⟨h, (C2_pnl_formula cfgD pnlSt "B" pnlPos 110 h).1⟩

/-- Claim C3: for positive prices on both venues the scanner uses the
reference price as the denominator, directs long exactly when the reference
price is below the comparison price and short otherwise, emits an
opportunity exactly when the spread reaches the minimum, and silently skips
a symbol missing from either quote map. -/
theorem C3_scanner (cfg : Config) (st : StrategyState) (symbol : String)
    (mexcQ dexQ : String → Option ℚ) (now : ℚ) (gw : OpenResult) :
    (∀ a b : ℚ, mexcQ symbol = some a → dexQ symbol = some b →
      0 < a → 0 < b →
      (((analyze_symbol cfg st symbol mexcQ dexQ now gw).2.1 ≠ none) ↔
          cfg.min_spread_percent ≤ |a - b| / a * 100) ∧
      (∀ opp, (analyze_symbol cfg st symbol mexcQ dexQ now gw).2.1 =
          some opp →
        opp.spread_percent = |a - b| / a * 100 ∧
        (opp.direction = Side.long ↔ a < b) ∧
        (opp.direction = Side.short ↔ ¬a < b))) ∧
    ((mexcQ symbol = none ∨ dexQ symbol = none) →
      analyze_symbol cfg st symbol mexcQ dexQ now gw = (st, none, false)) := by
  constructor
  · intro a b ha hb hapos hbpos
    by_cases hsp : cfg.min_spread_percent ≤ |a - b| / a * 100
    · constructor
      · simp [analyze_symbol, ha, hb, hsp]
      · intro opp hopp
        simp only [analyze_symbol, ha, hb, if_pos hsp, Option.some_inj] at hopp
        subst hopp
        refine ⟨rfl, ?_, ?_⟩
        · by_cases hab : a < b <;> simp [hab]
        · by_cases hab : a < b <;> simp [hab]
    · constructor
      · simp [analyze_symbol, ha, hb, hsp]
      · intro opp hopp
        simp [analyze_symbol, ha, hb, hsp] at hopp
  · intro h
    rcases h with h | h
    · cases hd : dexQ symbol <;> simp [analyze_symbol, h, hd]
    · cases hm : mexcQ symbol <;> simp [analyze_symbol, h, hm]

/-- Witness for C3: the scanner example at reference 45000 and comparison
48500 clears the 7.5 percent minimum. -/
theorem C3_scanner_witness :
    ((analyze_symbol cfgD (initialState 0) "X" m3 d3 0
        OpenResult.failed).2.1 ≠ none) ↔
      cfgD.min_spread_percent ≤ |(45000 : ℚ) - 48500| / 45000 * 100 :=
  ((C3_scanner cfgD (initialState 0) "X" m3 d3 0 OpenResult.failed).1
    45000 48500 (by norm_num [m3]) (by norm_num [d3]) (by norm_num)
    (by norm_num)).1

/-- Claim C4: exit evaluation agrees pointwise with the five spec rules in
their stated priority, and when no open position signals a close the
position-management pass leaves the state untouched. -/
theorem C4_exit_priority :
    (∀ (pos : ActivePosition) (now : ℚ) (mexcQuote dexQuote : Option ℚ),
      should_close_position pos now (FetchResult.ok mexcQuote dexQuote) =
        exitRulesSpec pos now mexcQuote dexQuote) ∧
    (∀ (cfg : Config) (st : StrategyState) (now : ℚ)
        (fetch : String → FetchResult) (cf : String → CloseFetch),
      (∀ p ∈ st.active_positions,
          should_close_position p.2 now (fetch p.1) = false) →
      manage_positions cfg st now fetch cf = st) := by
  constructor
  · intro pos now mexcQuote dexQuote
    cases mexcQuote with
    | none => cases dexQuote <;> rfl
    | some refPrice =>
        cases dexQuote with
        | none => rfl
        | some cmpPrice =>
            cases hs : pos.side <;>
              simp [should_close_position, exitRulesSpec, hs]
  · intro cfg st now fetch cf h
    have hf : st.active_positions.filter
        (fun p => should_close_position p.2 now (fetch p.1)) = [] := by
      rw [List.filter_eq_nil_iff]
      intro p hp
      simp [h p hp]
    rw [manage_positions]
    simp [hf]

/-- Witness for C4: a state with one open long whose quotes trigger none of
the exit rules passes through position management unchanged. -/
theorem C4_exit_priority_witness :
    (∀ p ∈ pnlSt.active_positions,
        should_close_position p.2 10
          (FetchResult.ok (some 100) (some 110)) = false) ∧
      manage_positions cfgD pnlSt 10
        (fun _ => FetchResult.ok (some 100) (some 110))
        (fun _ => CloseFetch.exn) = pnlSt := by
  have h : ∀ p ∈ pnlSt.active_positions,
      should_close_position p.2 10
        (FetchResult.ok (some 100) (some 110)) = false := by
    intro p hp
    simp only [pnlSt, List.mem_singleton] at hp
    subst hp
    norm_num +decide [should_close_position, pnlPos, max_hold_seconds]
  exact ⟨h, C4_exit_priority.2 cfgD pnlSt 10 _ _ h⟩

/-- Claim C5: a close attempt that fails at any stage — exception, missing
ticker, or a rejected gateway close — leaves the entire strategy state,
including the open-position map and all statistics, unchanged. -/
theorem C5_failed_close_retains :
    ∀ (cfg : Config) (st : StrategyState) (symbol : String) (p : ℚ),
      close_position cfg st symbol (CloseFetch.ticker p false) = st ∧
      close_position cfg st symbol CloseFetch.noTicker = st ∧
      close_position cfg st symbol CloseFetch.exn = st := by
  intro cfg st symbol p
  refine ⟨?_, ?_, ?_⟩ <;>
    · rw [close_position]
      cases posLookup st.active_positions symbol <;> simp

/-- Claim C6: a failed or raising gateway open leaves the state unchanged —
no position, no counter bump — while a successful open records the position
and increments both trade counters. -/
theorem C6_entry_failure_atomicity :
    ∀ (cfg : Config) (st : StrategyState) (opp : ArbitrageOpportunity)
      (now : ℚ),
      (open_position cfg st opp now OpenResult.failed).1 = st ∧
      (open_position cfg st opp now OpenResult.exn).1 = st ∧
      ∀ price : Option ℚ,
        (open_position cfg st opp now
            (OpenResult.ok price)).1.total_trades = st.total_trades + 1 ∧
        (open_position cfg st opp now
            (OpenResult.ok price)).1.daily_trades = st.daily_trades + 1 ∧
        posLookup (open_position cfg st opp now
            (OpenResult.ok price)).1.active_positions opp.symbol ≠ none := by
  intro cfg st opp now
  refine ⟨rfl, rfl, ?_⟩
  intro price
  refine ⟨rfl, rfl, ?_⟩
  rw [open_position]
  simp [posLookup_posInsert_self]

/-- Claim C7 counterexample: with a zero configured notional the computed
size is not positive, yet the entry path still makes the gateway order
call — there is no size guard. -/
theorem C7_counterexample :
    cfg7.fixed_position_size / opp7.mexc_price ≤ 0 ∧
      (consider_entry cfg7 (initialState 0) opp7 0 OpenResult.failed).2 =
        true := by
  constructor
  · norm_num [cfg7, opp7]
  · norm_num +decide [consider_entry, open_position, posLookup, initialState,
      cfg7, opp7]

/-- Claim C7 amended: entry sizing is fixed-notional only — the size is the
configured notional divided by the reference price — and once the admission
checks pass the gateway call is made unconditionally, with no size or
balance guard and no risk-based alternative. -/
theorem C7_fixed_sizing (cfg : Config) (st : StrategyState)
    (opp : ArbitrageOpportunity) (now : ℚ)
    (h1 : posLookup st.active_positions opp.symbol = none)
    (h2 : st.active_positions.length < cfg.max_positions) :
    (∀ gw, (consider_entry cfg st opp now gw).2 = true) ∧
    ∀ price : Option ℚ, ∃ pos : ActivePosition,
      posLookup ((consider_entry cfg st opp now
          (OpenResult.ok price)).1).active_positions opp.symbol = some pos ∧
      pos.size = cfg.fixed_position_size / opp.mexc_price := by
  have hle : ¬cfg.max_positions ≤ st.active_positions.length :=
    not_le.2 h2
  constructor
  · intro gw
    rw [consider_entry]
    simp only [h1, ne_eq, not_true_eq_false, if_false, hle,
      not_false_eq_true]
    cases gw <;> rfl
  · intro price
    rw [consider_entry]
    simp only [h1, ne_eq, not_true_eq_false, if_false, hle,
      not_false_eq_true]
    rw [open_position]
    exact ⟨_, posLookup_posInsert_self st.active_positions opp.symbol _, rfl⟩

/-- Witness for C7: the fresh state admits the qualifying opportunity and
the gateway call is made even though the configured notional is zero. -/
theorem C7_fixed_sizing_witness :
    posLookup (initialState 0).active_positions opp7.symbol = none ∧
      (initialState 0).active_positions.length < cfg7.max_positions ∧
      (consider_entry cfg7 (initialState 0) opp7 0 OpenResult.exn).2 =
        true := by
  have h1 : posLookup (initialState 0).active_positions opp7.symbol = none :=
    rfl
  have h2 : (initialState 0).active_positions.length < cfg7.max_positions :=
    by norm_num [initialState, cfg7]
  exact ⟨h1, h2,
    (C7_fixed_sizing cfg7 (initialState 0) opp7 0 h1 h2).1 OpenResult.exn⟩

/-- Claim C8 counterexample: a configuration with zero maxPositions and
everything else in order passes validation, so zero maxPositions is not a
fatal configuration error. -/
theorem C8_counterexample : cfg8.max_positions = 0 ∧ cfg8.validate = true := by
  constructor
  · rfl
  · norm_num +decide [Config.validate, cfg8]

/-- Claim C8 amended: validation succeeds exactly when both API keys are
non-empty, the minimum spread threshold is positive, and the symbol list is
non-empty; neither maxPositions nor the target spread threshold is
checked. -/
theorem C8_validate_iff :
    ∀ c : Config,
      c.validate = true ↔
        (c.mexc_api_key ≠ "" ∧ c.mexc_secret ≠ "" ∧
          0 < c.min_spread_percent ∧ c.symbols ≠ []) := by
  intro c
  unfold Config.validate
  split_ifs with h1 h2 h3
  · rcases h1 with h | h <;> simp [h]
  · simp [not_lt.2 h2]
  · simp [h3]
  · push_neg at h1
    simp [h1.1, h1.2, not_le.1 h2, h3]

/-- Claim C9: on a calendar-date change the daily counters reset to zero
and the reset date advances while every cumulative total is untouched, the
prior-day totals are emitted exactly once, and a tick with no date change
alters nothing. -/
theorem C9_daily_reset :
    ∀ (st : StrategyState) (d : ℤ),
      (d ≠ st.last_daily_reset →
        (update_statistics st d).1.daily_pnl = 0 ∧
        (update_statistics st d).1.daily_trades = 0 ∧
        (update_statistics st d).1.last_daily_reset = d ∧
        (update_statistics st d).1.total_pnl = st.total_pnl ∧
        (update_statistics st d).1.total_trades = st.total_trades ∧
        (update_statistics st d).1.winning_trades = st.winning_trades ∧
        (update_statistics st d).2 = true ∧
        (update_statistics (update_statistics st d).1 d).2 = false) ∧
      (d = st.last_daily_reset → update_statistics st d = (st, false)) := by
  intro st d
  constructor
  · intro h
    refine ⟨?_, ?_, ?_, ?_, ?_, ?_, ?_, ?_⟩ <;>
      simp [update_statistics, h]
  · intro h
    simp [update_statistics, h]

/-- Witness for C9: the stats with daily PnL 50 dated to day 0, observed on
day 1, reset the daily fields, keep the totals, and archive only once. -/
theorem C9_daily_reset_witness :
    (1 : ℤ) ≠ st9.last_daily_reset ∧
      (update_statistics st9 1).1.daily_pnl = 0 ∧
      (update_statistics st9 1).1.total_pnl = st9.total_pnl ∧
      (update_statistics (update_statistics st9 1).1 1).2 = false := by
  have hne : (1 : ℤ) ≠ st9.last_daily_reset := by norm_num [st9]
  have h := (C9_daily_reset st9 1).1 hne
  exact ⟨hne, h.1, h.2.2.2.1, h.2.2.2.2.2.2.2⟩

/-- Claim C10: an exception raised anywhere inside exit evaluation yields a
close signal, so an errored evaluation never leaves the position in an
unknown open state. -/
theorem C10_exception_close :
    ∀ (pos : ActivePosition) (now : ℚ),
      should_close_position pos now FetchResult.exn = true :=
  fun _ _ => rfl

end ArbitrageBot
